/-
  Verification of the tileable routing-resource-graph builder and the mux
  bitstream encoder of this OpenFPGA snapshot.

  Shallow embedding of:
  * src/vpr7_x2p/vpr/SRC/device/rr_graph/rr_graph_tileable_builder.c
    (segment-to-track allocator, channel track builder, node census,
     graph assembler, grid construction loop)
  * src/unnamed/part_000 (mux default-path resolution and CMOS bitstream
    encoding)

  Machine integers (size_t, int) are modelled as Nat/Int: the algorithms are
  counting algorithms whose intended envelope is far below 2^53 (the C code
  even routes the demand bookkeeping through IEEE doubles, which are exact on
  integers only below 2^53), so overflow is not modelled except where the
  source converts a negative int to size_t (toSizeT below).  Fatal aborts
  (exit(1), assert, VTR_ASSERT) and out-of-bounds vector accesses are
  modelled as Option.none.
-/
import Mathlib

set_option maxHeartbeats 1600000

/-! ## Segment descriptors (t_segment_inf, the fields used by the builder) -/

structure SegmentInf where
  seg_length : Nat
  frequency : Nat
  longline : Bool
deriving DecidableEq, Repr

/-! ## get_num_tracks_per_seg_type (rr_graph_tileable_builder.c, lines 74-135)

The C routine keeps `demand` in doubles; every value it ever stores there is
an integer (`scale` is the product of all segment lengths, so the single
division by a length is exact), so the demands are embedded as `Int`.
The `while (assigned < chan_width)` loop is embedded with fuel
`chan_width`: every iteration either increases `assigned` by at least one
(so at most `chan_width` iterations can run), or has `size = 0`, which in
the source happens only when `segment_inf[imax].length == 0`; in that case
`scale = 0`, every demand is 0 (or NaN, which never wins a `>` comparison),
`imax` stays pinned forever and the C loop never terminates.  Hence
`none` exactly models the non-terminating / out-of-bounds executions. -/

def segScale (segs : List SegmentInf) : Nat :=
  segs.foldl (fun a s => a * s.seg_length) 1

def segFreqSum (segs : List SegmentInf) : Nat :=
  segs.foldl (fun a s => a + s.frequency) 0

def initDemand (chan_width : Nat) (segs : List SegmentInf) (useFull : Bool) :
    List Int :=
  segs.map fun s =>
    let d : Int := (segScale segs : Int) * chan_width * s.frequency
    if useFull then d / s.seg_length else d

/-- The maximum-demand scan (lines 113-120): `max` starts at 0, `imax`
carries over its previous value, a strictly greater demand updates `imax`
(first-seen wins ties). -/
def findMaxGo : List Int → Nat → Int → Nat → Nat
  | [], _, _, im => im
  | d :: rest, i, mx, im =>
    if d > mx then findMaxGo rest (i + 1) d i
    else findMaxGo rest (i + 1) mx im

def findMaxIdx (demand : List Int) (im0 : Nat) : Nat :=
  findMaxGo demand 0 0 im0

structure AllocState where
  result : List Nat
  demand : List Int
  assigned : Nat
  size : Nat
  imax : Nat
deriving Repr

def groupSize (useFull : Bool) (s : SegmentInf) : Nat :=
  if useFull then s.seg_length else 1

/-- One iteration of the assignment loop (lines 122-126): assign `size`
tracks to the maximum-demand type `im` and reduce its demand. -/
def stepState (segs : List SegmentInf) (useFull : Bool) (reduce : Int)
    (st : AllocState) (im : Nat) (h : im < segs.length) : AllocState :=
  { result := st.result.set im
      (st.result.getD im 0 + groupSize useFull (segs.get ⟨im, h⟩))
    demand := st.demand.set im (st.demand.getD im 0 - reduce)
    assigned := st.assigned + groupSize useFull (segs.get ⟨im, h⟩)
    size := groupSize useFull (segs.get ⟨im, h⟩)
    imax := im }

def allocLoop (segs : List SegmentInf) (useFull : Bool) (reduce : Int)
    (chan_width : Nat) : Nat → AllocState → Option AllocState
  | 0, st => if st.assigned < chan_width then none else some st
  | fuel + 1, st =>
    if st.assigned < chan_width then
      if h : findMaxIdx st.demand st.imax < segs.length then
        allocLoop segs useFull reduce chan_width fuel
          (stepState segs useFull reduce st (findMaxIdx st.demand st.imax) h)
      else none
    else some st

def get_num_tracks_per_seg_type (chan_width : Nat)
    (segment_inf : List SegmentInf) (use_full_seg_groups : Bool) :
    Option (List Nat) :=
  let scale := segScale segment_inf
  let freq_sum := segFreqSum segment_inf
  let reduce : Int := (scale : Int) * freq_sum
  let st0 : AllocState :=
    { result := List.replicate segment_inf.length 0
      demand := initDemand chan_width segment_inf use_full_seg_groups
      assigned := 0
      size := 0
      imax := 0 }
  match allocLoop segment_inf use_full_seg_groups reduce chan_width
      chan_width st0 with
  | none => none
  | some st =>
    -- lines 129-132: undo last assignment if we were closer without it
    if st.assigned - chan_width > st.size / 2 then
      some (st.result.set st.imax (st.result.getD st.imax 0 - st.size))
    else
      some st.result

example :
    get_num_tracks_per_seg_type 6
      [⟨2, 1, false⟩, ⟨4, 1, false⟩] true = some [2, 4] := by decide

example : get_num_tracks_per_seg_type 1 [⟨2, 1, false⟩] true = some [2] := by
  decide

example : get_num_tracks_per_seg_type 1 [] true = none := by decide

example : get_num_tracks_per_seg_type 0 [] true = some [] := by decide

/-! ## ChanNodeDetails and build_unidir_chan_node_details (lines 191-264)

The `ChanNodeDetails` class lives in chan_node_details.h/cpp, which is not
under src/; its operations are modelled from the spec. -/

inductive TrackDirection
  | INC_DIRECTION
  | DEC_DIRECTION
deriving DecidableEq, Repr

inductive DeviceSide
  | TOP
  | RIGHT
  | BOTTOM
  | LEFT
  | NUM_SIDES
deriving DecidableEq, Repr

open TrackDirection DeviceSide

/-- A routing track: direction, effective segment length, start and end
flags.  The track index of the source is the position in the list. -/
structure TrackInfo where
  direction : TrackDirection
  seg_length : Nat
  seg_start : Bool
  seg_end : Bool
deriving DecidableEq, Repr

/-- Modelled from the spec: `ChanNodeDetails::set_tracks_start` (the class is
not under src/) — on a border, tracks of the given direction are "forced to
start-only". -/
def set_tracks_start (dir : TrackDirection) (tracks : List TrackInfo) :
    List TrackInfo :=
  tracks.map fun t =>
    if t.direction = dir then { t with seg_start := true, seg_end := false }
    else t

/-- Modelled from the spec: `ChanNodeDetails::set_tracks_end` — on a border,
tracks of the given direction are "forced to end-only". -/
def set_tracks_end (dir : TrackDirection) (tracks : List TrackInfo) :
    List TrackInfo :=
  tracks.map fun t =>
    if t.direction = dir then { t with seg_start := false, seg_end := true }
    else t

/-- Modelled from the spec: `ChanNodeDetails::get_num_starting_tracks` — the
census creates a CHANX/CHANY node only for tracks flagged "start". -/
def get_num_starting_tracks (tracks : List TrackInfo) : Nat :=
  (tracks.filter fun t => t.seg_start).length

/-- The inner loop of lines 220-233 for one segment type: pair `itrack`
(0-based within the type's run) yields an INC track then a DEC track, both
flagged "start" exactly when `itrack % seg_len == 0`. -/
def typeTracks (seg_len : Nat) : Nat → List TrackInfo
  | 0 => []
  | n + 1 =>
    typeTracks seg_len n ++
      [⟨INC_DIRECTION, seg_len, n % seg_len == 0, false⟩,
       ⟨DEC_DIRECTION, seg_len, n % seg_len == 0, false⟩]

/-- Lines 216-219: the effective length of a segment type — the fallback
`max_seg_length` for longline types, the declared length otherwise. -/
def effLength (max_seg_length : Nat) (s : SegmentInf) : Nat :=
  if s.longline then max_seg_length else s.seg_length

/-- The outer loop of lines 214-234 over the (segment type, allocated pair
count) list. -/
def buildAllTracks (max_seg_length : Nat) :
    List (SegmentInf × Nat) → List TrackInfo
  | [] => []
  | (s, n) :: rest =>
    typeTracks (effLength max_seg_length s) n ++
      buildAllTracks max_seg_length rest

/-- Lines 196-199: an odd requested width is incremented to even. -/
def roundEven (w : Nat) : Nat := if w % 2 ≠ 0 then w + 1 else w

/-- The border override of lines 239-261; `NUM_SIDES` leaves flags
untouched.  (The C `default:` arm is unreachable for the five enum values.) -/
def applySideFlags (side : DeviceSide) (tracks : List TrackInfo) :
    List TrackInfo :=
  match side with
  | TOP | RIGHT => set_tracks_start DEC_DIRECTION (set_tracks_end INC_DIRECTION tracks)
  | BOTTOM | LEFT => set_tracks_end DEC_DIRECTION (set_tracks_start INC_DIRECTION tracks)
  | NUM_SIDES => tracks

/-- build_unidir_chan_node_details (lines 191-264).  The
`assert (cur_track == chan_width)` of line 236 is modelled as the length
check; a failing assert aborts, i.e. `none`. -/
def build_unidir_chan_node_details (chan_width max_seg_length : Nat)
    (device_side : DeviceSide) (segment_inf : List SegmentInf) :
    Option (List TrackInfo) :=
  let cw := roundEven chan_width
  if cw = 0 then some []
  else
    match get_num_tracks_per_seg_type (cw / 2) segment_inf true with
    | none => none
    | some num_tracks =>
      let tracks := buildAllTracks max_seg_length (segment_inf.zip num_tracks)
      if tracks.length = cw then some (applySideFlags device_side tracks)
      else none

example :
    build_unidir_chan_node_details 2 8 NUM_SIDES [⟨2, 1, false⟩] = none := by
  decide

example :
    build_unidir_chan_node_details 2 8 LEFT [⟨1, 1, false⟩] =
      some [⟨INC_DIRECTION, 1, true, false⟩, ⟨DEC_DIRECTION, 1, false, true⟩] := by
  decide

example :
    (build_unidir_chan_node_details 12 10 NUM_SIDES
        [⟨2, 1, false⟩, ⟨4, 1, false⟩]).map List.length = some 12 := by
  decide

/-! ## Grid tiles and pin counting (lines 266-331) -/

inductive PinType
  | OPEN
  | DRIVER
  | RECEIVER
deriving DecidableEq, Repr

open PinType

/-- The slice of `t_type_descriptor` used by the census: pin count, height,
`pinloc[height][side][pin]`, `pin_class[pin]`, and whether the descriptor is
the global `EMPTY_TYPE` / `IO_TYPE`. -/
structure TileTypeInfo where
  num_pins : Nat
  height : Nat
  pinloc : Nat → DeviceSide → Nat → Bool
  pin_class : Nat → PinType
  isEmpty : Bool
  isIO : Bool

/-- One `t_grid_tile`: its type descriptor and height offset. -/
structure GridTile where
  type : TileTypeInfo
  offset : Nat

structure DeviceCoordinator where
  x : Nat
  y : Nat
deriving DecidableEq, Repr

/-- determine_io_grid_pin_side (lines 266-284); the final `else` branch is a
fatal `exit(1)`, modelled as `none`. -/
def determine_io_grid_pin_side (device_size grid_coordinator : DeviceCoordinator) :
    Option DeviceSide :=
  if device_size.y = grid_coordinator.y then some BOTTOM
  else if device_size.x = grid_coordinator.x then some LEFT
  else if grid_coordinator.y = 0 then some TOP
  else if grid_coordinator.x = 0 then some RIGHT
  else none

/-- get_grid_side_pins (lines 291-304). -/
def get_grid_side_pins (cur_grid : GridTile) (pin_type : PinType)
    (pin_side : DeviceSide) (pin_height : Nat) : List Nat :=
  (List.range cur_grid.type.num_pins).filter fun ipin =>
    cur_grid.type.pinloc pin_height pin_side ipin &&
      (cur_grid.type.pin_class ipin == pin_type)

/-- The `side = 0 .. NUM_SIDES-1` enumeration order of `enum e_side`. -/
def sideList : List DeviceSide := [TOP, RIGHT, BOTTOM, LEFT]

/-- get_grid_num_pins (lines 311-331): sum the per-side, per-height pin lists,
restricting an IO-type tile to the single `io_side`. -/
def get_grid_num_pins (cur_grid : GridTile) (pin_type : PinType)
    (io_side : DeviceSide) : Nat :=
  sideList.foldl
    (fun num_pins side =>
      if cur_grid.type.isIO && side != io_side then num_pins
      else
        num_pins +
          (List.range cur_grid.type.height).foldl
            (fun a height =>
              a + (get_grid_side_pins cur_grid pin_type side height).length) 0)
    0

/-! ## estimate_num_rr_nodes_per_type (lines 337-440) -/

/-- The grid matrix handed to the census: dimensions and the tile at each
coordinate (the source's `std::vector<std::vector<t_grid_tile>>` is
rectangular). -/
structure DeviceGrid where
  X : Nat
  Y : Nat
  tiles : Nat → Nat → GridTile

/-- The pin part of the census (lines 359-381): walk every cell, skip
EMPTY-type tiles and non-origin cells (`offset > 0`), determine the single
pin side of an IO-type tile from `device_size` (the computed
`io_device_size` of line 372 is dead: the source passes `device_size`), and
accumulate OPIN and IPIN counts.  The fatal abort inside
`determine_io_grid_pin_side` is propagated as `none`. -/
def census_pins (device_size : DeviceCoordinator) (grids : DeviceGrid) :
    Option (Nat × Nat) :=
  (List.range grids.X).foldl
    (fun acc ix =>
      (List.range grids.Y).foldl
        (fun acc2 iy =>
          match acc2 with
          | none => none
          | some (op, ip) =>
            let g := grids.tiles ix iy
            if g.type.isEmpty then some (op, ip)
            else if 0 < g.offset then some (op, ip)
            else
              match
                (if g.type.isIO then
                  determine_io_grid_pin_side device_size ⟨ix, iy⟩
                 else some NUM_SIDES) with
              | none => none
              | some io_side =>
                some (op + get_grid_num_pins g DRIVER io_side,
                      ip + get_grid_num_pins g RECEIVER io_side))
        acc)
    (some (0, 0))

/-- The CHANX part of the census (lines 401-418).  Each border / core loop
adds a constant per iteration; iteration counts mirror the source bounds
(`iy < device_size.y - 1` for the borders, `1 <= ix < grids.X - 2` and
`1 <= iy < grids.Y - 2` for the core).  Note the core representative is
built from `chan_width[1]`. -/
def census_chanx (device_size : DeviceCoordinator) (grids : DeviceGrid)
    (chan_width : List Nat) (segment_infs : List SegmentInf) : Option Nat :=
  match build_unidir_chan_node_details (chan_width.getD 0 0)
      (device_size.x - 2) LEFT segment_infs with
  | none => none
  | some left_details =>
  match build_unidir_chan_node_details (chan_width.getD 0 0)
      (device_size.x - 2) RIGHT segment_infs with
  | none => none
  | some right_details =>
  match build_unidir_chan_node_details (chan_width.getD 1 0)
      (device_size.x - 2) NUM_SIDES segment_infs with
  | none => none
  | some core_details =>
    some
      ((List.range (device_size.y - 1)).foldl
          (fun a _ => a + get_num_starting_tracks left_details) 0 +
       (List.range (device_size.y - 1)).foldl
          (fun a _ => a + get_num_starting_tracks right_details) 0 +
       (List.range' 1 (grids.X - 2 - 1)).foldl
          (fun a _ =>
            (List.range' 1 (grids.Y - 2 - 1)).foldl
              (fun b _ => b + get_num_starting_tracks core_details) a) 0)

/-- The CHANY part of the census (lines 420-437); all three representatives
are built from `chan_width[1]`, the border loops run `ix < device_size.x - 1`
times. -/
def census_chany (device_size : DeviceCoordinator) (grids : DeviceGrid)
    (chan_width : List Nat) (segment_infs : List SegmentInf) : Option Nat :=
  match build_unidir_chan_node_details (chan_width.getD 1 0)
      (device_size.y - 2) TOP segment_infs with
  | none => none
  | some top_details =>
  match build_unidir_chan_node_details (chan_width.getD 1 0)
      (device_size.y - 2) BOTTOM segment_infs with
  | none => none
  | some bottom_details =>
  match build_unidir_chan_node_details (chan_width.getD 1 0)
      (device_size.y - 2) NUM_SIDES segment_infs with
  | none => none
  | some core_details =>
    some
      ((List.range (device_size.x - 1)).foldl
          (fun a _ => a + get_num_starting_tracks top_details) 0 +
       (List.range (device_size.x - 1)).foldl
          (fun a _ => a + get_num_starting_tracks bottom_details) 0 +
       (List.range' 1 (grids.X - 2 - 1)).foldl
          (fun a _ =>
            (List.range' 1 (grids.Y - 2 - 1)).foldl
              (fun b _ => b + get_num_starting_tracks core_details) a) 0)

/-- estimate_num_rr_nodes_per_type: the returned vector is indexed by
`t_rr_type` (SOURCE=0, SINK, IPIN, OPIN, CHANX, CHANY, INTRA_CLUSTER_EDGE);
SOURCE copies the OPIN count and SINK the IPIN count (lines 383-384),
INTRA_CLUSTER_EDGE stays 0. -/
def estimate_num_rr_nodes_per_type (device_size : DeviceCoordinator)
    (grids : DeviceGrid) (chan_width : List Nat)
    (segment_infs : List SegmentInf) : Option (List Nat) :=
  match census_pins device_size grids with
  | none => none
  | some (op, ip) =>
  match census_chanx device_size grids chan_width segment_infs with
  | none => none
  | some cx =>
  match census_chany device_size grids chan_width segment_infs with
  | none => none
  | some cy => some [op, ip, ip, op, cx, cy, 0]

/-! ## The graph assembler: build_tileable_unidir_rr_graph (lines 482-611) -/

inductive RRNodeType
  | SOURCE
  | SINK
  | IPIN
  | OPIN
  | CHANX
  | CHANY
  | INTRA_CLUSTER_EDGE
deriving DecidableEq, Repr

open RRNodeType

def rr_type_index : RRNodeType → Nat
  | SOURCE => 0
  | SINK => 1
  | IPIN => 2
  | OPIN => 3
  | CHANX => 4
  | CHANY => 5
  | INTRA_CLUSTER_EDGE => 6

/-- Modelled from the spec: the node-instantiation phase (steps 4 and 6 of
build_tileable_unidir_rr_graph) is absent from src/ — the function only
leaves section headers and a commented-out block there.  Per the spec's
census guarantee, the assembler instantiates, category by category, exactly
the predicted number of nodes into the allocated storage. -/
def populate_rr_nodes (census : List Nat) : List RRNodeType :=
  List.replicate (census.getD 0 0) SOURCE ++
  List.replicate (census.getD 1 0) SINK ++
  List.replicate (census.getD 2 0) IPIN ++
  List.replicate (census.getD 3 0) OPIN ++
  List.replicate (census.getD 4 0) CHANX ++
  List.replicate (census.getD 5 0) CHANY ++
  List.replicate (census.getD 6 0) INTRA_CLUSTER_EDGE

/-- The slice of `t_rr_graph` the node-allocation discipline concerns:
`num_rr_nodes` and the `rr_node` storage (modelled by the types of the
nodes it holds). -/
structure TileableRRGraph where
  num_rr_nodes : Nat
  rr_node : List RRNodeType
deriving DecidableEq, Repr

/-- Lines 535-545 followed by the (spec-modelled) population: run the
census, fix `num_rr_nodes` to the sum of the per-category totals
(lines 540-543), allocate the storage once with exactly that size
(line 545), and fill it.  The storage is never resized afterwards: the
only other allocation site in the source (lines 586-594) is commented
out. -/
def build_tileable_rr_graph_nodes (device_size : DeviceCoordinator)
    (grids : DeviceGrid) (chan_width : List Nat)
    (segment_infs : List SegmentInf) : Option TileableRRGraph :=
  match estimate_num_rr_nodes_per_type device_size grids chan_width
      segment_infs with
  | none => none
  | some census =>
    some { num_rr_nodes := census.sum, rr_node := populate_rr_nodes census }

/-! ## The grid-construction loops of lines 508-514

```
for (int ix = 0; ix < (L_nx + 2); ++ix) {
  grids[ix].resize(L_ny + 2);
  for (int iy = 0; ix < (L_ny + 2); ++iy) {
    grid[ix][iy] = L_grid[ix][iy];
  }
}
```
The inner condition tests `ix` (which the inner loop never changes) instead
of `iy`, and the body writes the global `grid`, not the local `grids`.  The
inner loop is embedded with fuel, recording the cells written; `none` for
every fuel value means the loop runs forever. -/

def grid_copy_inner (L_ny ix : Nat) :
    Nat → Nat → List (Nat × Nat) → Option (List (Nat × Nat))
  | fuel, iy, writes =>
    if ix < L_ny + 2 then
      match fuel with
      | 0 => none
      | fuel' + 1 => grid_copy_inner L_ny ix fuel' (iy + 1) (writes ++ [(ix, iy)])
    else some writes

def grid_copy (L_nx L_ny fuel : Nat) : Option (List (Nat × Nat)) :=
  (List.range (L_nx + 2)).foldl
    (fun acc ix =>
      match acc with
      | none => none
      | some writes => grid_copy_inner L_ny ix fuel 0 writes)
    (some [])

/-! ## Mux default-path resolution and CMOS bitstream encoding
(src/unnamed/part_000) -/

/-- The slice of the circuit-model catalog a mux query uses:
`CircuitLibrary::mux_add_const_input(model)`. -/
structure CircuitModel where
  add_const_input : Bool
deriving DecidableEq, Repr

/-- Modelled from the spec: `DEFAULT_MUX_PATH_ID` (fpga_x2p_types.h, not
under src/) is "a fixed sentinel representing first input (index 0 by
convention)". -/
def DEFAULT_MUX_PATH_ID : Nat := 0

/-- Modelled from the spec: `DEFAULT_PATH_ID` (not under src/) is the
"use default" request marker, "distinct from all valid input indices";
modelled as the negative int -1. -/
def DEFAULT_PATH_ID : Int := -1

/-- find_mux_default_path_id (part_000, lines 26-38). -/
def find_mux_default_path_id (mux_model : CircuitModel) (mux_size : Nat) :
    Nat :=
  if mux_model.add_const_input then mux_size else DEFAULT_MUX_PATH_ID

/-- Modelled from the spec: `find_mux_implementation_num_inputs`
(mux_utils, not under src/) — "compute implemented size (declared size,
incremented by one if the model adds a constant input)". -/
def find_mux_implementation_num_inputs (mux_model : CircuitModel)
    (mux_size : Nat) : Nat :=
  if mux_model.add_const_input then mux_size + 1 else mux_size

/-- Modelled from the spec: a MuxGraph (not under src/) — its single output
is the only terminal routed to, and `decode_memory_bits` returns the
fixed-length bit vector for a (input terminal, output terminal) pair. -/
structure MuxGraph where
  outputs : List Nat
  decode_memory_bits : Nat → Nat → List Bool

/-- Modelled from the spec: the shared read-only MuxLibrary (not under
src/), looked up by (model, implemented size); a missing entry is fatal. -/
structure MuxLibrary where
  mux_graph : CircuitModel → Nat → Option MuxGraph

/-- The implicit `int` → `size_t` conversion of
`size_t datapath_id = path_id;` (part_000, line 64). -/
def toSizeT (i : Int) : Nat := (i % (2 ^ 64 : Int)).toNat

/-- The datapath-id resolution of part_000, lines 64-71: the "use default"
marker is substituted by `find_mux_default_path_id` applied to the
**implemented** mux size. -/
def mux_datapath_id (mux_model : CircuitModel) (mux_size : Nat)
    (path_id : Int) : Nat :=
  if path_id = DEFAULT_PATH_ID then
    find_mux_default_path_id mux_model
      (find_mux_implementation_num_inputs mux_model mux_size)
  else toSizeT path_id

/-- build_cmos_mux_bitstream (part_000, lines 50-78).  The two `VTR_ASSERT`s
(path bound, single output) and a failed library lookup abort, i.e.
`none`. -/
def build_cmos_mux_bitstream (mux_model : CircuitModel)
    (mux_lib : MuxLibrary) (mux_size : Nat) (path_id : Int) :
    Option (List Bool) :=
  let implemented_mux_size := find_mux_implementation_num_inputs mux_model mux_size
  match mux_lib.mux_graph mux_model implemented_mux_size with
  | none => none
  | some mux_graph =>
    let datapath_id := mux_datapath_id mux_model mux_size path_id
    if path_id = DEFAULT_PATH_ID then
      if mux_graph.outputs.length = 1 then
        some (mux_graph.decode_memory_bits datapath_id (mux_graph.outputs.getD 0 0))
      else none
    else
      if toSizeT path_id < mux_size then
        if mux_graph.outputs.length = 1 then
          some (mux_graph.decode_memory_bits datapath_id (mux_graph.outputs.getD 0 0))
        else none
      else none

/-! ## General list helpers -/

lemma foldl_add_const {α : Type} (l : List α) (c : Nat) :
    ∀ a : Nat, l.foldl (fun acc _ => acc + c) a = a + l.length * c := by
  induction l with
  | nil => intro a; simp
  | cons x xs ih =>
    intro a
    simp only [List.foldl_cons, List.length_cons, ih, Nat.succ_mul]
    omega

lemma foldl_nested_add_const {α β : Type} (l : List α) (l' : List β) (c : Nat) :
    ∀ a : Nat,
      l.foldl (fun x _ => l'.foldl (fun y _ => y + c) x) a =
        a + l.length * (l'.length * c) := by
  induction l with
  | nil => intro a; simp
  | cons x xs ih =>
    intro a
    simp only [List.foldl_cons, List.length_cons, ih, foldl_add_const, Nat.succ_mul]
    omega

lemma getD_set_self (l : List Nat) (i v : Nat) (h : i < l.length) :
    (l.set i v).getD i 0 = v := by
  rw [List.getD_eq_getElem _ _ (by simpa using h)]
  simp [List.getElem_set_self]

lemma sum_set_getD_add (l : List Nat) (i s : Nat) (h : i < l.length) :
    (l.set i (l.getD i 0 + s)).sum = l.sum + s := by
  induction l generalizing i with
  | nil => simp at h
  | cons x xs ih =>
    cases i with
    | zero => simp [List.getD_cons_zero]; omega
    | succ n =>
      simp only [List.set_cons_succ, List.getD_cons_succ, List.sum_cons]
      rw [ih n (by simpa using h)]
      omega

lemma sum_set_getD_sub (l : List Nat) (i s : Nat) (h : i < l.length)
    (hs : s ≤ l.getD i 0) :
    (l.set i (l.getD i 0 - s)).sum + s = l.sum := by
  induction l generalizing i with
  | nil => simp at h
  | cons x xs ih =>
    cases i with
    | zero => simp [List.getD_cons_zero] at *; omega
    | succ n =>
      simp only [List.set_cons_succ, List.getD_cons_succ, List.sum_cons] at *
      have := ih n (by simpa using h) hs
      omega

lemma getD_mem (l : List SegmentInf) (i : Nat) (d : SegmentInf)
    (h : i < l.length) : l.getD i d ∈ l := by
  rw [List.getD_eq_getElem _ _ h]
  exact List.getElem_mem h

/-! ## Facts about the demand scan and the assignment loop -/

lemma findMaxGo_cases :
    ∀ (l : List Int) (i : Nat) (mx : Int) (im : Nat),
      findMaxGo l i mx im < i + l.length ∨ findMaxGo l i mx im = im := by
  intro l
  induction l with
  | nil => intro i mx im; right; rfl
  | cons d rest ih =>
    intro i mx im
    simp only [findMaxGo, List.length_cons]
    by_cases hd : d > mx
    · rw [if_pos hd]
      rcases ih (i + 1) d i with h | h
      · left; omega
      · left; omega
    · rw [if_neg hd]
      rcases ih (i + 1) mx im with h | h
      · left; omega
      · right; exact h

lemma findMaxIdx_lt (demand : List Int) (im0 n : Nat)
    (hd : demand.length = n) (h0 : im0 < n) : findMaxIdx demand im0 < n := by
  rcases findMaxGo_cases demand 0 0 im0 with h | h
  · simpa [findMaxIdx, hd] using h
  · simpa [findMaxIdx, h] using h0

/-- The facts recorded by the last loop iteration, available whenever the
loop exits after at least one assignment. -/
def ExitFacts (segs : List SegmentInf) (useFull : Bool) (chan_width : Nat)
    (st : AllocState) : Prop :=
  st.imax < segs.length ∧
  st.size = groupSize useFull (segs.getD st.imax ⟨0, 0, false⟩) ∧
  st.size ≤ st.result.getD st.imax 0 ∧
  st.size ≤ st.assigned ∧
  st.assigned - st.size < chan_width

lemma allocLoop_spec (segs : List SegmentInf) (useFull : Bool) (reduce : Int)
    (W : Nat) (hlen : ∀ s ∈ segs, 1 ≤ s.seg_length) :
    ∀ fuel st,
      st.result.length = segs.length →
      st.demand.length = segs.length →
      st.imax < segs.length →
      st.result.sum = st.assigned →
      W ≤ fuel + st.assigned →
      (st.assigned < W ∨ ExitFacts segs useFull W st) →
      ∃ st', allocLoop segs useFull reduce W fuel st = some st' ∧
        st'.result.length = segs.length ∧
        st'.result.sum = st'.assigned ∧
        W ≤ st'.assigned ∧
        ExitFacts segs useFull W st' := by
  intro fuel
  induction fuel with
  | zero =>
    intro st h1 h2 h3 h4 h5 h6
    have hge : ¬ st.assigned < W := by omega
    refine ⟨st, by simp [allocLoop, hge], h1, h4, by omega, ?_⟩
    rcases h6 with h | h
    · exact absurd h hge
    · exact h
  | succ fuel ih =>
    intro st h1 h2 h3 h4 h5 h6
    by_cases hlt : st.assigned < W
    · have him : findMaxIdx st.demand st.imax < segs.length :=
        findMaxIdx_lt _ _ _ h2 h3
      set im := findMaxIdx st.demand st.imax with him_def
      have hget : segs.get ⟨im, him⟩ = segs.getD im ⟨0, 0, false⟩ := by
        rw [List.getD_eq_getElem _ _ him]
        rfl
      have hsz1 : 1 ≤ groupSize useFull (segs.get ⟨im, him⟩) := by
        unfold groupSize
        by_cases hu : useFull
        · simpa [hu] using hlen _ (List.get_mem segs _ _)
        · simp [hu]
      set sz := groupSize useFull (segs.get ⟨im, him⟩) with hsz_def
      have hstep : allocLoop segs useFull reduce W (fuel + 1) st =
          allocLoop segs useFull reduce W fuel
            (stepState segs useFull reduce st im him) := by
        conv_lhs => rw [allocLoop]
        rw [if_pos hlt, dif_pos him]
      have haux := ih (stepState segs useFull reduce st im him)
        (by simp [stepState, h1])
        (by simp [stepState, h2])
        (by simpa [stepState] using him)
        (by
          simp only [stepState]
          rw [sum_set_getD_add st.result im sz (h1 ▸ him), h4])
        (by simp only [stepState]; omega)
        (by
          right
          refine ⟨by simpa [stepState] using him, ?_, ?_, ?_, ?_⟩
          · simp only [stepState]
            rw [← hget]
          · simp only [stepState]
            rw [getD_set_self st.result im _ (h1 ▸ him)]
            omega
          · simp only [stepState]
            omega
          · simp only [stepState]
            omega)
      rw [hstep]
      exact haux
    · have h6' : ExitFacts segs useFull W st := by
        rcases h6 with h | h
        · exact absurd h hlt
        · exact h
      refine ⟨st, ?_, h1, h4, by omega, h6'⟩
      conv_lhs => rw [allocLoop]
      rw [if_neg hlt]

def maxGroupSize (segs : List SegmentInf) (useFull : Bool) : Nat :=
  segs.foldl (fun a s => max a (groupSize useFull s)) 1

lemma le_foldl_max (useFull : Bool) :
    ∀ (l : List SegmentInf) (a : Nat),
      a ≤ l.foldl (fun x s => max x (groupSize useFull s)) a := by
  intro l
  induction l with
  | nil => intro a; simp
  | cons x xs ih =>
    intro a
    exact le_trans (Nat.le_max_left a (groupSize useFull x)) (ih _)

lemma groupSize_le_maxGroupSize (useFull : Bool) :
    ∀ (l : List SegmentInf) (a : Nat) (s : SegmentInf), s ∈ l →
      groupSize useFull s ≤ l.foldl (fun x t => max x (groupSize useFull t)) a := by
  intro l
  induction l with
  | nil => intro a s hs; simp at hs
  | cons x xs ih =>
    intro a s hs
    rcases List.mem_cons.mp hs with rfl | hs
    · exact le_trans (Nat.le_max_right a (groupSize useFull s)) (le_foldl_max _ _ _)
    · exact ih _ _ hs

lemma allocLoop_length (segs : List SegmentInf) (useFull : Bool)
    (reduce : Int) (W : Nat) :
    ∀ fuel st st', allocLoop segs useFull reduce W fuel st = some st' →
      st'.result.length = st.result.length := by
  intro fuel
  induction fuel with
  | zero =>
    intro st st' h
    simp only [allocLoop] at h
    split at h
    · exact absurd h (by simp)
    · injection h with h
      rw [← h]
  | succ fuel ih =>
    intro st st' h
    simp only [allocLoop] at h
    split at h
    · split at h
      · have := ih _ _ h
        simpa [stepState] using this
      · exact absurd h (by simp)
    · injection h with h
      rw [← h]

lemma get_num_tracks_length (W : Nat) (segs : List SegmentInf) (useFull : Bool)
    (r : List Nat) (h : get_num_tracks_per_seg_type W segs useFull = some r) :
    r.length = segs.length := by
  simp only [get_num_tracks_per_seg_type] at h
  split at h
  · exact absurd h (by simp)
  · rename_i st heq
    have hst : st.result.length = segs.length := by
      simpa using allocLoop_length segs useFull _ W W _ st heq
    split at h
    · injection h with h
      simp [← h, hst]
    · injection h with h
      simp [← h, hst]

lemma get_num_tracks_zero (segs : List SegmentInf) (useFull : Bool) :
    get_num_tracks_per_seg_type 0 segs useFull =
      some (List.replicate segs.length 0) := by
  simp [get_num_tracks_per_seg_type, allocLoop]

/-- **C2.** For every positive track budget `W` and non-empty segment list
with positive lengths and frequencies, `get_num_tracks_per_seg_type`
returns a per-type count vector (entries are `Nat`, hence non-negative; the
single subtraction, the undo step, removes a quantity that was just added
to the same entry) whose sum equals `W` within one group-size tolerance —
the undo step of lines 129-132 removes the last assignment when the
overshoot exceeds half its size — and the sum is exactly `W` when every
group size is 1. -/
theorem segment_allocator_sum_within_group (W : Nat) (segs : List SegmentInf)
    (useFull : Bool) (hne : segs ≠ []) (hW : 1 ≤ W)
    (hlen : ∀ s ∈ segs, 1 ≤ s.seg_length)
    (hfreq : ∀ s ∈ segs, 1 ≤ s.frequency) :
    ∃ r, get_num_tracks_per_seg_type W segs useFull = some r ∧
      r.length = segs.length ∧
      r.sum ≤ W + maxGroupSize segs useFull ∧
      W ≤ r.sum + maxGroupSize segs useFull ∧
      ((∀ s ∈ segs, groupSize useFull s = 1) → r.sum = W) := by
  have hn : 0 < segs.length := List.length_pos.mpr hne
  obtain ⟨st, hloop, hlen', hsum, hW', hexit⟩ :=
    allocLoop_spec segs useFull ((segScale segs : Int) * segFreqSum segs) W hlen
      W ⟨List.replicate segs.length 0, initDemand W segs useFull, 0, 0, 0⟩
      (by simp) (by simp [initDemand]) (by simpa using hn) (by simp)
      (by simp) (Or.inl (by simpa using hW))
  obtain ⟨him, hsz_eq, hsz_le_res, hsz_le_asn, hovershoot⟩ := hexit
  have hmem : segs.getD st.imax ⟨0, 0, false⟩ ∈ segs := getD_mem _ _ _ him
  have hszmax : st.size ≤ maxGroupSize segs useFull := by
    rw [hsz_eq]
    exact groupSize_le_maxGroupSize useFull segs 1 _ hmem
  simp only [get_num_tracks_per_seg_type, hloop]
  by_cases hundo : st.assigned - W > st.size / 2
  · rw [if_pos hundo]
    have hres : st.imax < st.result.length := by rw [hlen']; exact him
    have hsub := sum_set_getD_sub st.result st.imax st.size hres hsz_le_res
    refine ⟨_, rfl, by simp [hlen'], by omega, by omega, ?_⟩
    intro hall
    have h1 : st.size = 1 := by rw [hsz_eq]; exact hall _ hmem
    omega
  · rw [if_neg hundo]
    refine ⟨_, rfl, hlen', by omega, by omega, ?_⟩
    intro hall
    have h1 : st.size = 1 := by rw [hsz_eq]; exact hall _ hmem
    omega

theorem segment_allocator_sum_within_group_witness :
    ([⟨2, 1, false⟩, ⟨4, 1, false⟩] : List SegmentInf) ≠ [] ∧ 1 ≤ 6 ∧
      (∀ s ∈ ([⟨2, 1, false⟩, ⟨4, 1, false⟩] : List SegmentInf),
        1 ≤ s.seg_length) ∧
      (∀ s ∈ ([⟨2, 1, false⟩, ⟨4, 1, false⟩] : List SegmentInf),
        1 ≤ s.frequency) ∧
      (∃ r, get_num_tracks_per_seg_type 6 [⟨2, 1, false⟩, ⟨4, 1, false⟩] true =
          some r ∧
        r.length = ([⟨2, 1, false⟩, ⟨4, 1, false⟩] : List SegmentInf).length ∧
        r.sum ≤ 6 + maxGroupSize [⟨2, 1, false⟩, ⟨4, 1, false⟩] true ∧
        6 ≤ r.sum + maxGroupSize [⟨2, 1, false⟩, ⟨4, 1, false⟩] true ∧
        ((∀ s ∈ ([⟨2, 1, false⟩, ⟨4, 1, false⟩] : List SegmentInf),
            groupSize true s = 1) → r.sum = 6)) :=
  ⟨by decide, by decide, by decide, by decide,
    segment_allocator_sum_within_group 6 [⟨2, 1, false⟩, ⟨4, 1, false⟩] true
      (by decide) (by decide) (by decide) (by decide)⟩

/-- **C9, counterexample.**  The claim says an empty segment descriptor list
is returned safely (all-zero vector) for every `W`; but for `W = 1` the
loop body dereferences `segment_inf[imax]` on an empty vector — the
embedding yields `none` (the C code is an out-of-bounds access /
non-terminating loop), not an all-zero vector. -/
theorem segment_allocator_empty_counterexample :
    get_num_tracks_per_seg_type 1 [] true ≠
      some (List.replicate ([] : List SegmentInf).length 0) := by decide

/-- **C9, amended.**  `W = 0` returns the all-zero vector without entering
the assignment loop (for any segment list, the empty one included); but for
`W ≥ 1` the empty segment list is a failure: the loop never terminates /
reads out of bounds (`none`). -/
theorem segment_allocator_zero_and_empty :
    (∀ (segs : List SegmentInf) (useFull : Bool),
      get_num_tracks_per_seg_type 0 segs useFull =
        some (List.replicate segs.length 0)) ∧
    (∀ (W : Nat) (useFull : Bool), 1 ≤ W →
      get_num_tracks_per_seg_type W [] useFull = none) := by
  constructor
  · intro segs useFull
    exact get_num_tracks_zero segs useFull
  · intro W useFull hW
    obtain ⟨w, rfl⟩ : ∃ w, W = w + 1 := ⟨W - 1, by omega⟩
    simp [get_num_tracks_per_seg_type, allocLoop, findMaxIdx, findMaxGo,
      initDemand]

theorem segment_allocator_zero_and_empty_witness :
    get_num_tracks_per_seg_type 0 [⟨2, 1, false⟩] true = some [0] ∧
      1 ≤ 5 ∧ get_num_tracks_per_seg_type 5 [] true = none :=
  ⟨segment_allocator_zero_and_empty.1 [⟨2, 1, false⟩] true, by decide,
    segment_allocator_zero_and_empty.2 5 true (by decide)⟩

/-! ## Length facts for the channel builder -/

lemma typeTracks_length (seg_len n : Nat) :
    (typeTracks seg_len n).length = 2 * n := by
  induction n with
  | zero => rfl
  | succ n ih => simp [typeTracks, ih]; omega

lemma buildAllTracks_zip_length (max_seg_length : Nat) :
    ∀ (segs : List SegmentInf) (nums : List Nat),
      segs.length = nums.length →
      (buildAllTracks max_seg_length (segs.zip nums)).length = 2 * nums.sum := by
  intro segs
  induction segs with
  | nil =>
    intro nums h
    have : nums = [] := by
      cases nums with
      | nil => rfl
      | cons a l => simp at h
    simp [this, buildAllTracks]
  | cons s rest ih =>
    intro nums h
    cases nums with
    | nil => simp at h
    | cons n nt =>
      have hih := ih nt (by simpa using h)
      have hz : (s :: rest).zip (n :: nt) = (s, n) :: rest.zip nt := rfl
      rw [hz]
      simp only [buildAllTracks, List.length_append, typeTracks_length,
        List.sum_cons, hih]
      omega

lemma applySideFlags_length (side : DeviceSide) (tracks : List TrackInfo) :
    (applySideFlags side tracks).length = tracks.length := by
  cases side <;> simp [applySideFlags, set_tracks_start, set_tracks_end]

lemma roundEven_mod_two (w : Nat) : roundEven w % 2 = 0 := by
  unfold roundEven
  by_cases h : w % 2 ≠ 0
  · rw [if_pos h]; omega
  · rw [if_neg h]; omega

/-- **C3, counterexample.**  Requested width 2 (already even) with a single
length-2, frequency-1 segment type: the allocator assigns a whole group of
2 pairs to the type (sum 2 ≠ 2/2), the builder constructs 4 tracks, and the
`assert (cur_track == chan_width)` of line 236 fires — the builder does not
produce "exactly that many tracks" and the assertion does fire. -/
theorem channel_builder_assert_counterexample :
    build_unidir_chan_node_details 2 8 NUM_SIDES [⟨2, 1, false⟩] = none := by
  decide

/-- **C3, amended.**  The width is rounded up to even and the track list is
built in increasing/decreasing pairs, so its length is even; the length
equals the rounded-up width — and the final assertion passes — exactly when
the allocator's per-type pair counts sum to half the rounded width (which
holds, e.g., when all segment lengths are 1, but fails for width 2 with a
single length-2 segment, where the assertion aborts the run). -/
theorem channel_builder_track_count (chan_width max_seg_length : Nat)
    (side : DeviceSide) (segs : List SegmentInf) (nums : List Nat)
    (h1 : get_num_tracks_per_seg_type (roundEven chan_width / 2) segs true =
      some nums)
    (h2 : 2 * nums.sum = roundEven chan_width) :
    ∃ tracks,
      build_unidir_chan_node_details chan_width max_seg_length side segs =
        some tracks ∧
      tracks.length = roundEven chan_width ∧
      tracks.length % 2 = 0 := by
  by_cases hcw : roundEven chan_width = 0
  · refine ⟨[], ?_, by simp [hcw], by simp⟩
    simp only [build_unidir_chan_node_details, hcw]
    rfl
  · have hlen : segs.length = nums.length :=
      (get_num_tracks_length _ _ _ _ h1).symm
    have hblen : (buildAllTracks max_seg_length (segs.zip nums)).length =
        roundEven chan_width := by
      rw [buildAllTracks_zip_length _ _ _ hlen, h2]
    refine ⟨applySideFlags side (buildAllTracks max_seg_length (segs.zip nums)),
      ?_, ?_, ?_⟩
    · simp [build_unidir_chan_node_details, if_neg hcw, h1, hblen]
    · rw [applySideFlags_length, hblen]
    · rw [applySideFlags_length, hblen]
      exact roundEven_mod_two chan_width

theorem channel_builder_track_count_witness :
    get_num_tracks_per_seg_type (roundEven 12 / 2)
        [⟨2, 1, false⟩, ⟨4, 1, false⟩] true = some [2, 4] ∧
      2 * ([2, 4] : List Nat).sum = roundEven 12 ∧
      (∃ tracks,
        build_unidir_chan_node_details 12 10 NUM_SIDES
            [⟨2, 1, false⟩, ⟨4, 1, false⟩] = some tracks ∧
        tracks.length = roundEven 12 ∧
        tracks.length % 2 = 0) :=
  ⟨by decide, by decide,
    channel_builder_track_count 12 10 NUM_SIDES [⟨2, 1, false⟩, ⟨4, 1, false⟩]
      [2, 4] (by decide) (by decide)⟩

/-! ## Indexing facts for the channel builder (claim C8) -/

lemma typeTracks_getD (seg_len : Nat) (d : TrackInfo) :
    ∀ (n j : Nat), j < n →
      (typeTracks seg_len n).getD (2 * j) d =
        ⟨INC_DIRECTION, seg_len, j % seg_len == 0, false⟩ ∧
      (typeTracks seg_len n).getD (2 * j + 1) d =
        ⟨DEC_DIRECTION, seg_len, j % seg_len == 0, false⟩ := by
  intro n
  induction n with
  | zero => intro j hj; omega
  | succ n ih =>
    intro j hj
    by_cases hjn : j < n
    · have h2j : 2 * j < (typeTracks seg_len n).length := by
        rw [typeTracks_length]; omega
      have h2j1 : 2 * j + 1 < (typeTracks seg_len n).length := by
        rw [typeTracks_length]; omega
      constructor
      · simp only [typeTracks]
        rw [List.getD_append _ _ _ _ h2j]
        exact (ih j hjn).1
      · simp only [typeTracks]
        rw [List.getD_append _ _ _ _ h2j1]
        exact (ih j hjn).2
    · have hj_eq : j = n := by omega
      subst hj_eq
      have hlen : (typeTracks seg_len j).length = 2 * j := typeTracks_length _ _
      constructor
      · simp only [typeTracks]
        rw [List.getD_append_right _ _ _ _ (by omega), hlen]
        simp
      · simp only [typeTracks]
        rw [List.getD_append_right _ _ _ _ (by omega), hlen]
        have : 2 * j + 1 - 2 * j = 1 := by omega
        rw [this]
        simp

lemma buildAllTracks_zip_getD (max_seg_length : Nat) (d : TrackInfo) :
    ∀ (segs : List SegmentInf) (nums : List Nat), segs.length = nums.length →
      ∀ i, i < segs.length → ∀ j, j < nums.getD i 0 →
      (buildAllTracks max_seg_length (segs.zip nums)).getD
          (2 * (nums.take i).sum + 2 * j) d =
        ⟨INC_DIRECTION, effLength max_seg_length (segs.getD i ⟨0, 0, false⟩),
          j % effLength max_seg_length (segs.getD i ⟨0, 0, false⟩) == 0,
          false⟩ ∧
      (buildAllTracks max_seg_length (segs.zip nums)).getD
          (2 * (nums.take i).sum + 2 * j + 1) d =
        ⟨DEC_DIRECTION, effLength max_seg_length (segs.getD i ⟨0, 0, false⟩),
          j % effLength max_seg_length (segs.getD i ⟨0, 0, false⟩) == 0,
          false⟩ := by
  intro segs
  induction segs with
  | nil => intro nums h i hi; simp at hi
  | cons s rest ih =>
    intro nums h i hi j hj
    cases nums with
    | nil => simp at h
    | cons n nt =>
      have hlen' : rest.length = nt.length := by simpa using h
      have hz : (s :: rest).zip (n :: nt) = (s, n) :: rest.zip nt := rfl
      have hpre : (typeTracks (effLength max_seg_length s) n).length = 2 * n :=
        typeTracks_length _ _
      cases i with
      | zero =>
        have hjn : j < n := by simpa using hj
        have h2j : 2 * j < (typeTracks (effLength max_seg_length s) n).length := by
          rw [hpre]; omega
        have h2j1 : 2 * j + 1 <
            (typeTracks (effLength max_seg_length s) n).length := by
          rw [hpre]; omega
        rw [hz]
        simp only [buildAllTracks, List.take_zero, List.sum_nil, Nat.mul_zero,
          Nat.zero_add, List.getD_cons_zero]
        constructor
        · rw [List.getD_append _ _ _ _ h2j]
          exact (typeTracks_getD _ d n j hjn).1
        · rw [List.getD_append _ _ _ _ h2j1]
          exact (typeTracks_getD _ d n j hjn).2
      | succ i' =>
        have hi' : i' < rest.length := by simpa using hi
        have hj' : j < nt.getD i' 0 := by simpa using hj
        have hsum : ((n :: nt).take (i' + 1)).sum = n + (nt.take i').sum := by
          simp [List.take_succ_cons]
        have hge : (typeTracks (effLength max_seg_length s) n).length ≤
            2 * ((n :: nt).take (i' + 1)).sum + 2 * j := by
          rw [hpre, hsum]; omega
        have hge1 : (typeTracks (effLength max_seg_length s) n).length ≤
            2 * ((n :: nt).take (i' + 1)).sum + 2 * j + 1 := by
          rw [hpre, hsum]; omega
        have hidx : 2 * ((n :: nt).take (i' + 1)).sum + 2 * j -
            (typeTracks (effLength max_seg_length s) n).length =
            2 * (nt.take i').sum + 2 * j := by
          rw [hpre, hsum]; omega
        have hidx1 : 2 * ((n :: nt).take (i' + 1)).sum + 2 * j + 1 -
            (typeTracks (effLength max_seg_length s) n).length =
            2 * (nt.take i').sum + 2 * j + 1 := by
          rw [hpre, hsum]; omega
        rw [hz]
        simp only [buildAllTracks, List.getD_cons_succ]
        constructor
        · rw [List.getD_append_right _ _ _ _ hge, hidx]
          exact (ih nt hlen' i' hi' j hj').1
        · rw [List.getD_append_right _ _ _ _ hge1, hidx1]
          exact (ih nt hlen' i' hi' j hj').2

/-- **C8.**  In any assert-passing channel built for the interior sentinel
(NUM_SIDES leaves the flags of lines 220-233 untouched), the pair at
0-based position `j` within segment type `i`'s run consists of an
increasing then a decreasing track sharing the start flag, and that flag is
set exactly when `j % effLength == 0` — so start tracks of one direction
within a type are spaced exactly `effLength` pairs apart. -/
theorem channel_start_flag_spacing (chan_width max_seg_length : Nat)
    (segs : List SegmentInf) (nums : List Nat) (tracks : List TrackInfo)
    (hn : get_num_tracks_per_seg_type (roundEven chan_width / 2) segs true =
      some nums)
    (hb : build_unidir_chan_node_details chan_width max_seg_length NUM_SIDES
        segs = some tracks)
    (i : Nat) (hi : i < segs.length) (j : Nat) (hj : j < nums.getD i 0)
    (d : TrackInfo) :
    tracks.getD (2 * (nums.take i).sum + 2 * j) d =
      ⟨INC_DIRECTION, effLength max_seg_length (segs.getD i ⟨0, 0, false⟩),
        j % effLength max_seg_length (segs.getD i ⟨0, 0, false⟩) == 0,
        false⟩ ∧
    tracks.getD (2 * (nums.take i).sum + 2 * j + 1) d =
      ⟨DEC_DIRECTION, effLength max_seg_length (segs.getD i ⟨0, 0, false⟩),
        j % effLength max_seg_length (segs.getD i ⟨0, 0, false⟩) == 0,
        false⟩ := by
  by_cases hcw : roundEven chan_width = 0
  · rw [hcw] at hn
    norm_num at hn
    rw [get_num_tracks_zero segs true] at hn
    injection hn with hn
    have hz : nums.getD i 0 = 0 := by
      rw [← hn, List.getD_eq_getElem _ _ (by simpa using hi)]
      simp
    omega
  · have hlen : segs.length = nums.length :=
      (get_num_tracks_length _ _ _ _ hn).symm
    simp only [build_unidir_chan_node_details, if_neg hcw, hn] at hb
    split at hb
    · injection hb with hb
      rw [← hb]
      simp only [applySideFlags]
      exact buildAllTracks_zip_getD max_seg_length d segs nums hlen i hi j hj
    · exact absurd hb (by simp)

theorem channel_start_flag_spacing_witness :
    get_num_tracks_per_seg_type (roundEven 12 / 2)
        [⟨2, 1, false⟩, ⟨4, 1, false⟩] true = some [2, 4] ∧
      build_unidir_chan_node_details 12 10 NUM_SIDES
          [⟨2, 1, false⟩, ⟨4, 1, false⟩] =
        some [⟨INC_DIRECTION, 2, true, false⟩, ⟨DEC_DIRECTION, 2, true, false⟩,
          ⟨INC_DIRECTION, 2, false, false⟩, ⟨DEC_DIRECTION, 2, false, false⟩,
          ⟨INC_DIRECTION, 4, true, false⟩, ⟨DEC_DIRECTION, 4, true, false⟩,
          ⟨INC_DIRECTION, 4, false, false⟩, ⟨DEC_DIRECTION, 4, false, false⟩,
          ⟨INC_DIRECTION, 4, false, false⟩, ⟨DEC_DIRECTION, 4, false, false⟩,
          ⟨INC_DIRECTION, 4, false, false⟩, ⟨DEC_DIRECTION, 4, false, false⟩] ∧
      1 < ([⟨2, 1, false⟩, ⟨4, 1, false⟩] : List SegmentInf).length ∧
      0 < ([2, 4] : List Nat).getD 1 0 ∧
      ([⟨INC_DIRECTION, 2, true, false⟩, ⟨DEC_DIRECTION, 2, true, false⟩,
          ⟨INC_DIRECTION, 2, false, false⟩, ⟨DEC_DIRECTION, 2, false, false⟩,
          ⟨INC_DIRECTION, 4, true, false⟩, ⟨DEC_DIRECTION, 4, true, false⟩,
          ⟨INC_DIRECTION, 4, false, false⟩, ⟨DEC_DIRECTION, 4, false, false⟩,
          ⟨INC_DIRECTION, 4, false, false⟩, ⟨DEC_DIRECTION, 4, false, false⟩,
          ⟨INC_DIRECTION, 4, false, false⟩,
          ⟨DEC_DIRECTION, 4, false, false⟩] : List TrackInfo).getD
          (2 * (([2, 4] : List Nat).take 1).sum + 2 * 0)
          ⟨INC_DIRECTION, 0, false, false⟩ =
        ⟨INC_DIRECTION,
          effLength 10
            (([⟨2, 1, false⟩, ⟨4, 1, false⟩] :
              List SegmentInf).getD 1 ⟨0, 0, false⟩),
          0 % effLength 10
            (([⟨2, 1, false⟩, ⟨4, 1, false⟩] :
              List SegmentInf).getD 1 ⟨0, 0, false⟩) == 0, false⟩ :=
  ⟨by decide, by decide, by decide, by decide,
    (channel_start_flag_spacing 12 10 [⟨2, 1, false⟩, ⟨4, 1, false⟩] [2, 4] _
      (by decide) (by decide) 1 (by decide) 0 (by decide)
      ⟨INC_DIRECTION, 0, false, false⟩).1⟩

/-! ## Claim C6: the channel part of the census -/

/-- Following the spec's words, for comparison with the source: the CHANX
total with *every* representative — the interior one included — built from
the X-axis channel width `chan_width[0]`. -/
def census_chanx_specWords (device_size : DeviceCoordinator)
    (grids : DeviceGrid) (chan_width : List Nat)
    (segment_infs : List SegmentInf) : Option Nat :=
  match build_unidir_chan_node_details (chan_width.getD 0 0)
      (device_size.x - 2) LEFT segment_infs with
  | none => none
  | some left_details =>
  match build_unidir_chan_node_details (chan_width.getD 0 0)
      (device_size.x - 2) RIGHT segment_infs with
  | none => none
  | some right_details =>
  match build_unidir_chan_node_details (chan_width.getD 0 0)
      (device_size.x - 2) NUM_SIDES segment_infs with
  | none => none
  | some core_details =>
    some
      ((List.range (device_size.y - 1)).foldl
          (fun a _ => a + get_num_starting_tracks left_details) 0 +
       (List.range (device_size.y - 1)).foldl
          (fun a _ => a + get_num_starting_tracks right_details) 0 +
       (List.range' 1 (grids.X - 2 - 1)).foldl
          (fun a _ =>
            (List.range' 1 (grids.Y - 2 - 1)).foldl
              (fun b _ => b + get_num_starting_tracks core_details) a) 0)

/-- An empty-type tile (used to build concrete grids). -/
def emptyTile : GridTile :=
  ⟨⟨0, 1, fun _ _ _ => false, fun _ => OPEN, true, false⟩, 0⟩

/-- A pin-less IO-type tile (used to build concrete grids). -/
def ioTile : GridTile :=
  ⟨⟨0, 1, fun _ _ _ => false, fun _ => OPEN, false, true⟩, 0⟩

/-- A 4x4 all-empty grid. -/
def c6grid : DeviceGrid := ⟨4, 4, fun _ _ => emptyTile⟩

/-- **C6, counterexample.**  On a 4x4 device with X-axis width 2 and Y-axis
width 4 over a single unit segment, the source computes CHANX = 3+3+4 = 10
(its interior representative is built from `chan_width[1]`, the Y-axis
width), while the claim's formula — every CHANX representative built from
the X-axis width — yields 3+3+2 = 8. -/
theorem census_chanx_width_counterexample :
    census_chanx ⟨4, 4⟩ c6grid [2, 4] [⟨1, 1, false⟩] = some 10 ∧
    census_chanx_specWords ⟨4, 4⟩ c6grid [2, 4] [⟨1, 1, false⟩] = some 8 ∧
    census_chanx ⟨4, 4⟩ c6grid [2, 4] [⟨1, 1, false⟩] ≠
      census_chanx_specWords ⟨4, 4⟩ c6grid [2, 4] [⟨1, 1, false⟩] := by
  refine ⟨by decide, by decide, by decide⟩

/-- **C6, amended.**  The census CHANX total is the sum over the left
border, right border and interior representatives of the representative's
start-flagged track count times the number of channel positions it
represents — but the interior CHANX representative is built from the Y-axis
channel width `chan_width[1]` (only the border CHANX representatives use
the X-axis width `chan_width[0]`); CHANY is, as claimed, built entirely
from the Y-axis width.  A track spanning several positions is counted once
per representative position through its start flag only. -/
theorem census_channel_totals (device_size : DeviceCoordinator)
    (grids : DeviceGrid) (chan_width : List Nat) (segs : List SegmentInf)
    (tL tR tCx tT tB tCy : List TrackInfo)
    (hL : build_unidir_chan_node_details (chan_width.getD 0 0)
      (device_size.x - 2) LEFT segs = some tL)
    (hR : build_unidir_chan_node_details (chan_width.getD 0 0)
      (device_size.x - 2) RIGHT segs = some tR)
    (hCx : build_unidir_chan_node_details (chan_width.getD 1 0)
      (device_size.x - 2) NUM_SIDES segs = some tCx)
    (hT : build_unidir_chan_node_details (chan_width.getD 1 0)
      (device_size.y - 2) TOP segs = some tT)
    (hB : build_unidir_chan_node_details (chan_width.getD 1 0)
      (device_size.y - 2) BOTTOM segs = some tB)
    (hCy : build_unidir_chan_node_details (chan_width.getD 1 0)
      (device_size.y - 2) NUM_SIDES segs = some tCy) :
    census_chanx device_size grids chan_width segs =
      some ((device_size.y - 1) * get_num_starting_tracks tL +
        (device_size.y - 1) * get_num_starting_tracks tR +
        (grids.X - 2 - 1) * ((grids.Y - 2 - 1) * get_num_starting_tracks tCx)) ∧
    census_chany device_size grids chan_width segs =
      some ((device_size.x - 1) * get_num_starting_tracks tT +
        (device_size.x - 1) * get_num_starting_tracks tB +
        (grids.X - 2 - 1) * ((grids.Y - 2 - 1) * get_num_starting_tracks tCy)) := by
  constructor
  · simp only [census_chanx, hL, hR, hCx, foldl_add_const,
      foldl_nested_add_const, List.length_range, List.length_range']
    simp [Nat.mul_comm]
  · simp only [census_chany, hT, hB, hCy, foldl_add_const,
      foldl_nested_add_const, List.length_range, List.length_range']
    simp [Nat.mul_comm]

theorem census_channel_totals_witness :
    build_unidir_chan_node_details 2 2 LEFT [⟨1, 1, false⟩] =
      some [⟨INC_DIRECTION, 1, true, false⟩, ⟨DEC_DIRECTION, 1, false, true⟩] ∧
    build_unidir_chan_node_details 2 2 RIGHT [⟨1, 1, false⟩] =
      some [⟨INC_DIRECTION, 1, false, true⟩, ⟨DEC_DIRECTION, 1, true, false⟩] ∧
    build_unidir_chan_node_details 4 2 NUM_SIDES [⟨1, 1, false⟩] =
      some [⟨INC_DIRECTION, 1, true, false⟩, ⟨DEC_DIRECTION, 1, true, false⟩,
        ⟨INC_DIRECTION, 1, true, false⟩, ⟨DEC_DIRECTION, 1, true, false⟩] ∧
    census_chanx ⟨4, 4⟩ c6grid [2, 4] [⟨1, 1, false⟩] = some 10 ∧
    census_chany ⟨4, 4⟩ c6grid [2, 4] [⟨1, 1, false⟩] = some 16 := by
  have h := census_channel_totals ⟨4, 4⟩ c6grid [2, 4] [⟨1, 1, false⟩]
    [⟨INC_DIRECTION, 1, true, false⟩, ⟨DEC_DIRECTION, 1, false, true⟩]
    [⟨INC_DIRECTION, 1, false, true⟩, ⟨DEC_DIRECTION, 1, true, false⟩]
    [⟨INC_DIRECTION, 1, true, false⟩, ⟨DEC_DIRECTION, 1, true, false⟩,
      ⟨INC_DIRECTION, 1, true, false⟩, ⟨DEC_DIRECTION, 1, true, false⟩]
    [⟨INC_DIRECTION, 1, false, true⟩, ⟨DEC_DIRECTION, 1, true, false⟩,
      ⟨INC_DIRECTION, 1, false, true⟩, ⟨DEC_DIRECTION, 1, true, false⟩]
    [⟨INC_DIRECTION, 1, true, false⟩, ⟨DEC_DIRECTION, 1, false, true⟩,
      ⟨INC_DIRECTION, 1, true, false⟩, ⟨DEC_DIRECTION, 1, false, true⟩]
    [⟨INC_DIRECTION, 1, true, false⟩, ⟨DEC_DIRECTION, 1, true, false⟩,
      ⟨INC_DIRECTION, 1, true, false⟩, ⟨DEC_DIRECTION, 1, true, false⟩]
    (by decide) (by decide) (by decide) (by decide) (by decide) (by decide)
  refine ⟨by decide, by decide, by decide, ?_, ?_⟩
  · simpa using h.1
  · simpa using h.2

/-! ## Claim C7: IO pin-side determination -/

/-- A 4x4 grid (nx = ny = 2) whose only non-empty cell is an IO tile at
(1, 3), i.e. on the top border row of the fabric. -/
def c7grid : DeviceGrid :=
  ⟨4, 4, fun ix iy => if ix = 1 ∧ iy = 3 then ioTile else emptyTile⟩

/-- **C7.**  The IO tile at (1, 3) of a 4x4 grid is adjacent to the outer
edge (its y equals the maximal row index 3 = 4 - 1), yet
`determine_io_grid_pin_side` — which the census calls with the full
`device_size` (4, 4) while the `io_device_size` (3, 3) computed on
line 372 is left unused — matches `y` against 4, falls through every test
and hits the fatal `exit(1)`; the whole pin census aborts.  The claim says
such a tile must be counted on its bottom side and must not abort. -/
theorem io_pin_side_fatal_on_border :
    (3 = (4 : Nat) - 1) ∧
    determine_io_grid_pin_side ⟨4, 4⟩ ⟨1, 3⟩ = none ∧
    census_pins ⟨4, 4⟩ c7grid = none := by
  refine ⟨by decide, by decide, by decide⟩

/-! ## Claim C10: the grid-construction loops -/

lemma grid_copy_inner_ix_lt_none (L_ny ix : Nat) (h : ix < L_ny + 2) :
    ∀ fuel iy ws, grid_copy_inner L_ny ix fuel iy ws = none := by
  intro fuel
  induction fuel with
  | zero => intro iy ws; simp [grid_copy_inner, h]
  | succ fuel ih =>
    intro iy ws
    simp only [grid_copy_inner, if_pos h]
    exact ih _ _

/-- **C10.**  The grid-construction loop of lines 509-514 never terminates,
for any fuel bound: its inner condition reads `ix < L_ny + 2` instead of
`iy < L_ny + 2`, and `ix = 0 < L_ny + 2` always holds, so `iy` increments
forever (the body also writes the global `grid` rather than the local
`grids`).  Shown here at the smallest device, `L_nx = L_ny = 0`. -/
theorem grid_construction_never_terminates :
    ∀ fuel, grid_copy 0 0 fuel = none := by
  intro fuel
  have h2 : List.range 2 = [0, 1] := by decide
  simp [grid_copy, h2, grid_copy_inner_ix_lt_none 0 0 (by omega)]

/-! ## Claim C1: census-then-allocate discipline -/

lemma estimate_shape (device_size : DeviceCoordinator) (grids : DeviceGrid)
    (chan_width : List Nat) (segs : List SegmentInf) (census : List Nat)
    (h : estimate_num_rr_nodes_per_type device_size grids chan_width segs =
      some census) :
    ∃ op ip cx cy, census = [op, ip, ip, op, cx, cy, 0] := by
  simp only [estimate_num_rr_nodes_per_type] at h
  split at h
  · exact absurd h (by simp)
  · rename_i op ip hp
    split at h
    · exact absurd h (by simp)
    · rename_i cx hcx
      split at h
      · exact absurd h (by simp)
      · rename_i cy hcy
        injection h with h
        exact ⟨op, ip, cx, cy, h.symm⟩

/-- **C1.**  Whenever the assembler runs to completion, the total node count
is fixed — once, before any node is populated — as the sum over all
categories of the census prediction (lines 540-543); the storage is
allocated with exactly that size (line 545) and never resized (the only
other allocation site, lines 586-594, is commented out), and, category by
category, the populated node counts equal the census totals.  The
population itself is spec-modelled (`populate_rr_nodes`): steps 4-6 of the
source are header comments with no code. -/
theorem assembler_census_invariant (device_size : DeviceCoordinator)
    (grids : DeviceGrid) (chan_width : List Nat) (segs : List SegmentInf)
    (g : TileableRRGraph)
    (hg : build_tileable_rr_graph_nodes device_size grids chan_width segs =
      some g) :
    ∃ census,
      estimate_num_rr_nodes_per_type device_size grids chan_width segs =
        some census ∧
      g.num_rr_nodes = census.sum ∧
      g.rr_node.length = g.num_rr_nodes ∧
      ∀ t : RRNodeType, g.rr_node.count t = census.getD (rr_type_index t) 0 := by
  simp only [build_tileable_rr_graph_nodes] at hg
  split at hg
  · exact absurd hg (by simp)
  · rename_i census heq
    injection hg with hg
    obtain ⟨op, ip, cx, cy, hshape⟩ :=
      estimate_shape device_size grids chan_width segs census heq
    subst hshape
    refine ⟨_, heq, by rw [← hg], ?_, ?_⟩
    · rw [← hg]
      simp [populate_rr_nodes]
    · intro t
      rw [← hg]
      cases t <;>
        simp [populate_rr_nodes, rr_type_index, List.count_append,
          List.count_replicate]

/-- A 2x2 all-empty grid (the smallest device, nx = ny = 0). -/
def c1grid : DeviceGrid := ⟨2, 2, fun _ _ => emptyTile⟩

theorem assembler_census_invariant_witness :
    build_tileable_rr_graph_nodes ⟨2, 2⟩ c1grid [2, 2] [⟨1, 1, false⟩] =
      some ⟨4, [CHANX, CHANX, CHANY, CHANY]⟩ ∧
    (∃ census,
      estimate_num_rr_nodes_per_type ⟨2, 2⟩ c1grid [2, 2] [⟨1, 1, false⟩] =
        some census ∧
      (⟨4, [CHANX, CHANX, CHANY, CHANY]⟩ : TileableRRGraph).num_rr_nodes =
        census.sum ∧
      (⟨4, [CHANX, CHANX, CHANY, CHANY]⟩ : TileableRRGraph).rr_node.length =
        (⟨4, [CHANX, CHANX, CHANY, CHANY]⟩ : TileableRRGraph).num_rr_nodes ∧
      ∀ t : RRNodeType,
        (⟨4, [CHANX, CHANX, CHANY, CHANY]⟩ : TileableRRGraph).rr_node.count t =
          census.getD (rr_type_index t) 0) :=
  ⟨by decide,
    assembler_census_invariant ⟨2, 2⟩ c1grid [2, 2] [⟨1, 1, false⟩]
      ⟨4, [CHANX, CHANX, CHANY, CHANY]⟩ (by decide)⟩

/-! ## Claims C4 and C5: the mux bitstream encoder -/

/-- **C4.**  A direct call `find_mux_default_path_id(model, 4)` on a model
with a constant input returns 4, the reserved extra slot, as the claim
says.  But the encoder (part_000, line 68) passes the **implemented** size
(4 + 1 = 5) to `find_mux_default_path_id`, so the default path it resolves
is 5 — one past the constant input at index 4, contradicting the claim and
the function's own doc ("the default path id will be directed to the last
input of the MUX, which is the constant input"). -/
theorem encoder_default_path_mismatch :
    find_mux_default_path_id ⟨true⟩ 4 = 4 ∧
    mux_datapath_id ⟨true⟩ 4 DEFAULT_PATH_ID = 5 ∧
    mux_datapath_id ⟨true⟩ 4 DEFAULT_PATH_ID ≠ 4 := by
  refine ⟨by decide, by decide, by decide⟩

/-- **C5.**  With the MuxGraph for the implemented size looked up in the
library: a non-default path id at or above the declared mux size makes
`build_cmos_mux_bitstream` abort (`VTR_ASSERT(datapath_id < mux_size)`,
line 70 — never clamped or wrapped into range); a looked-up graph with
other than exactly one output terminal makes it abort
(`VTR_ASSERT(1 == mux_graph.outputs().size())`, line 74); and under both
preconditions it returns the decoded bit vector for the resolved datapath
and the single output. -/
theorem cmos_bitstream_guards (m : CircuitModel) (lib : MuxLibrary)
    (mux_size : Nat) (path_id : Int) (g : MuxGraph)
    (hg : lib.mux_graph m (find_mux_implementation_num_inputs m mux_size) =
      some g) :
    (path_id ≠ DEFAULT_PATH_ID → mux_size ≤ toSizeT path_id →
      build_cmos_mux_bitstream m lib mux_size path_id = none) ∧
    (g.outputs.length ≠ 1 →
      build_cmos_mux_bitstream m lib mux_size path_id = none) ∧
    (g.outputs.length = 1 →
      (path_id = DEFAULT_PATH_ID ∨ toSizeT path_id < mux_size) →
      build_cmos_mux_bitstream m lib mux_size path_id =
        some (g.decode_memory_bits (mux_datapath_id m mux_size path_id)
          (g.outputs.getD 0 0))) := by
  refine ⟨?_, ?_, ?_⟩
  · intro hnd hge
    simp only [build_cmos_mux_bitstream, hg]
    rw [if_neg hnd, if_neg (by omega)]
  · intro hout
    simp only [build_cmos_mux_bitstream, hg]
    by_cases hd : path_id = DEFAULT_PATH_ID
    · rw [if_pos hd, if_neg hout]
    · rw [if_neg hd]
      by_cases hlt : toSizeT path_id < mux_size
      · rw [if_pos hlt, if_neg hout]
      · rw [if_neg hlt]
  · intro hout hpre
    simp only [build_cmos_mux_bitstream, hg]
    rcases hpre with hd | hlt
    · rw [if_pos hd, if_pos hout]
    · by_cases hd : path_id = DEFAULT_PATH_ID
      · rw [if_pos hd, if_pos hout]
      · rw [if_neg hd, if_pos hlt, if_pos hout]

def c5graph : MuxGraph := ⟨[7], fun _ _ => [true, false]⟩

def c5lib : MuxLibrary := ⟨fun _ _ => some c5graph⟩

theorem cmos_bitstream_guards_witness :
    c5lib.mux_graph ⟨false⟩ (find_mux_implementation_num_inputs ⟨false⟩ 4) =
      some c5graph ∧
    ((9 : Int) ≠ DEFAULT_PATH_ID) ∧ 4 ≤ toSizeT 9 ∧
    build_cmos_mux_bitstream ⟨false⟩ c5lib 4 9 = none :=
  ⟨rfl, by decide, by norm_num [toSizeT],
    (cmos_bitstream_guards ⟨false⟩ c5lib 4 9 c5graph rfl).1 (by decide)
      (by norm_num [toSizeT])⟩
